import Mathlib

/- Verification development for qutebrowser's QtWebEngine download glue
   (qutebrowser/browser/webengine/webenginedownloads.py).

   Strings are modelled as lists of characters; Qt enum values as
   naturals; fallible code as `Except`; signal/slot wiring as explicit
   action traces. -/

set_option autoImplicit false

/-! ## Filename normalizer: `_strip_suffix`

The Python code strips the disambiguation suffix Chromium appends
(`" (N)"` or an ISO-8601 timestamp) with `re.sub` over the verbose
pattern

  `\ ?(\([0-9]+\)|\ -\ \d{4}-\d{2}-\d{2}T\d{2}:\d{2}:\d{2}.\d{3}Z)(?=\.|$)`

`re.sub` deletes every non-overlapping occurrence, scanning left to
right; after a match the scan resumes right after the deleted text.
The matchers below reproduce the pattern's backtracking order: the
optional space is consumed greedily and given back on failure, the
numeric alternative is tried before the ISO one, and the trailing
lookahead requires a dot, the end of the name, or the newline that
ends the name. -/

/-- `[0-9]+` (greedy): drop a maximal run of ASCII digits. -/
def consumeDigits : List Char → List Char
  | [] => []
  | c :: cs => if c.isDigit then consumeDigits cs else c :: cs

/-- `\([0-9]+\)`: an opening paren, at least one digit, the maximal
digit run, then a closing paren; returns the rest of the input. -/
def matchNum : List Char → Option (List Char)
  | p :: c :: cs =>
    if p = '(' ∧ c.isDigit then
      match consumeDigits cs with
      | q :: rest => if q = ')' then some rest else none
      | [] => none
    else none
  | _ => none

/-- Match one literal character. -/
def matchChar (x : Char) : List Char → Option (List Char)
  | c :: cs => if c = x then some cs else none
  | [] => none

/-- `.` without DOTALL: any character except a newline.  The pattern's
ISO alternative uses an unescaped `.` before the milliseconds. -/
def matchAnyChar : List Char → Option (List Char)
  | c :: cs => if c = '\n' then none else some cs
  | [] => none

/-- The codepoint ranges of the Unicode decimal digits (category Nd),
which is what Python's `\d` matches on a `str` pattern. -/
def ndRanges : List (Nat × Nat) :=
  [(48, 57), (1632, 1641), (1776, 1785), (1984, 1993), (2406, 2415),
   (2534, 2543), (2662, 2671), (2790, 2799), (2918, 2927), (3046,
   3055), (3174, 3183), (3302, 3311), (3430, 3439), (3558, 3567),
   (3664, 3673), (3792, 3801), (3872, 3881), (4160, 4169), (4240,
   4249), (6112, 6121), (6160, 6169), (6470, 6479), (6608, 6617),
   (6784, 6793), (6800, 6809), (6992, 7001), (7088, 7097), (7232,
   7241), (7248, 7257), (42528, 42537), (43216, 43225), (43264,
   43273), (43472, 43481), (43504, 43513), (43600, 43609), (44016,
   44025), (65296, 65305), (66720, 66729), (68912, 68921), (69734,
   69743), (69872, 69881), (69942, 69951), (70096, 70105), (70384,
   70393), (70736, 70745), (70864, 70873), (71248, 71257), (71360,
   71369), (71472, 71481), (71904, 71913), (72016, 72025), (72784,
   72793), (73040, 73049), (73120, 73129), (92768, 92777), (92864,
   92873), (93008, 93017), (120782, 120831), (123200, 123209),
   (123632, 123641), (125264, 125273), (130032, 130041)]

/-- Python `\d`: any Unicode decimal digit. -/
def isPyDigit (c : Char) : Bool :=
  ndRanges.any (fun p => decide (p.1 ≤ c.toNat ∧ c.toNat ≤ p.2))

/-- `\d{n}`: exactly `n` digits. -/
def matchDigitsN : Nat → List Char → Option (List Char)
  | 0, cs => some cs
  | _ + 1, [] => none
  | n + 1, c :: cs => if isPyDigit c then matchDigitsN n cs else none

/-- One atom of the fixed-width ISO-8601 alternative: a literal
character, an exact count of digits, or `.` (any non-newline char). -/
inductive Tok where
  | lit (c : Char)
  | digits (n : Nat)
  | anyChar
  deriving DecidableEq

/-- Match one atom. -/
def matchTok : Tok → List Char → Option (List Char)
  | .lit c, l => matchChar c l
  | .digits n, l => matchDigitsN n l
  | .anyChar, l => matchAnyChar l

/-- Match a sequence of atoms left to right. -/
def matchToks : List Tok → List Char → Option (List Char)
  | [], l => some l
  | t :: ts, l =>
    match matchTok t l with
    | some r => matchToks ts r
    | none => none

/-- The atoms of `\ -\ \d{4}-\d{2}-\d{2}T\d{2}:\d{2}:\d{2}.\d{3}Z`. -/
def isoToks : List Tok :=
  [.lit ' ', .lit '-', .lit ' ',
   .digits 4, .lit '-', .digits 2, .lit '-', .digits 2,
   .lit 'T', .digits 2, .lit ':', .digits 2, .lit ':', .digits 2,
   .anyChar, .digits 3, .lit 'Z']

/-- The ISO-8601 suffix alternative. -/
def matchISO (l : List Char) : Option (List Char) :=
  matchToks isoToks l

/-- `(?=\.|$)`: the suffix must sit right before the extension dot or
at `$`, which without MULTILINE matches at the end of the name or just
before a newline that ends the name. -/
def lookaheadOk : List Char → Bool
  | [] => true
  | c :: rest => c == '.' || (c == '\n' && rest.isEmpty)

/-- The ISO alternative of the group, with the lookahead applied. -/
def isoLA (l : List Char) : Option (List Char) :=
  match matchISO l with
  | some r => if lookaheadOk r then some r else none
  | none => none

/-- The parenthesised group with the lookahead: the numeric
alternative is preferred; on its failure (including a failed
lookahead) the ISO alternative is tried at the same position. -/
def tryGroup (l : List Char) : Option (List Char) :=
  match matchNum l with
  | some r => if lookaheadOk r then some r else isoLA l
  | none => isoLA l

/-- One attempt of the whole pattern at a position: `\ ?` consumes a
space greedily first and gives it back when the group (plus lookahead)
fails after it. -/
def matchSuffixAt (l : List Char) : Option (List Char) :=
  match l with
  | [] => none
  | c :: cs =>
    if c = ' ' then
      match tryGroup cs with
      | some r => some r
      | none => tryGroup (c :: cs)
    else tryGroup (c :: cs)

/-- The `re.sub` scan, fuelled for structural recursion; the fuel is
always at least the input length, which suffices because every match
consumes at least one character. -/
def stripGo (fuel : Nat) (l : List Char) : List Char :=
  match fuel, l with
  | _, [] => []
  | 0, l => l
  | fuel + 1, c :: cs =>
    match matchSuffixAt (c :: cs) with
    | some rest => stripGo fuel rest
    | none => c :: stripGo fuel cs

/-- `_strip_suffix`: delete every occurrence of the disambiguation
suffix pattern, scanning left to right. -/
def stripSuffix (l : List Char) : List Char :=
  stripGo l.length l

/-- `_strip_suffix` on `String`. -/
def stripSuffixStr (s : String) : String :=
  (stripSuffix s.toList).asString

/-- Does the pattern match anywhere in the input? -/
def hasMatch : List Char → Bool
  | [] => false
  | c :: cs => (matchSuffixAt (c :: cs)).isSome || hasMatch cs

/-! ## `DownloadManager.handle_download`: suggested-name computation

The handler first applies the QTBUG-90355 workaround: on engines older
than 5.15.3 a `data:` URL download reports a suggested name mis-derived
from the URL path or the MIME type; when the reported name equals that
buggy value, the name is instead rebuilt from the URL. -/

/-- A URL as the handler consumes it: `url.scheme()` and `url.path()`. -/
structure Url where
  scheme : String
  path : String
  deriving DecidableEq

/-- `utils.VersionNumber` comparison `v >= w` (lexicographic on
major, minor, patch). -/
def versionGE (v w : Nat × Nat × Nat) : Bool :=
  if v.1 ≠ w.1 then decide (v.1 > w.1)
  else if v.2.1 ≠ w.2.1 then decide (v.2.1 > w.2.1)
  else decide (v.2.2 ≥ w.2.2)

/-- The buggy engine-derived name for a `data:` URL: the last
slash-segment of the path when the last comma-segment of the path
contains a slash (e.g. a slash inside base64), otherwise the MIME
subtype.  `mime_type.split('/')[1]` raises in Python when the MIME
type has no slash; the claims only concern well-formed MIME types. -/
def wrongFilename (path mimeType : String) : String :=
  if ((path.splitOn ",").getLastD "").contains '/' then
    (path.splitOn "/").getLastD ""
  else
    ((mimeType.splitOn "/").getD 1 "")

/-- Does the QTBUG-90355 workaround apply?  Mirrors the
`if`/`elif`/`else` chain in `handle_download`. -/
def needsWorkaround (webengineVersion : Nat × Nat × Nat) (url : Url)
    (mimeType qtFilename : String) : Bool :=
  if versionGE webengineVersion (5, 15, 3) then
    false
  else if url.scheme.toLower = "data" then
    qtFilename == wrongFilename url.path mimeType
  else
    false

/-- The suggested filename `handle_download` computes.
`urlutils.filename_from_url` lives outside this module; it is taken as
an explicit collaborator function of the URL and the fallback
literal. -/
def suggestedFilename (filenameFromUrl : Url → String → String)
    (webengineVersion : Nat × Nat × Nat) (url : Url)
    (mimeType qtFilename : String) : String :=
  if needsWorkaround webengineVersion url mimeType qtFilename then
    filenameFromUrl url "qutebrowser-download"
  else
    stripSuffixStr qtFilename

/-! ## `handle_download`: target resolution

After `_init_item` the handler decides the download's destination by a
first-match cascade, returning right after each assignment:
the pending mhtml target (consumed and cleared), the pdfjs target, the
configured unconditional download directory, the origin-based cancel
check, and finally the blocking filename question. -/

/-- The outcome of the target-resolution cascade. -/
inductive Resolution (τ : Type) where
  | specialTarget (t : τ)
  | pdfjsTarget
  | fileTarget (path : String)
  | cancelledForOrigin
  | askUser
  deriving DecidableEq

/-- How many times the outcome assigned a target via `set_target`. -/
def setTargetCount {τ : Type} : Resolution τ → Nat
  | .specialTarget _ => 1
  | .pdfjsTarget => 1
  | .fileTarget _ => 1
  | .cancelledForOrigin => 0
  | .askUser => 0

/-- The target-resolution cascade of `handle_download`, together with
the new value of the `_mhtml_target` slot.  `usePdfjs` is
`pdfjs.should_use_pdfjs(...)`, `immediatePath` is
`downloads.immediate_download_path()`, and `cancelForOrigin` is the
result of `download.cancel_for_origin()` — all collaborators outside
this module. -/
def resolveTarget {τ : Type} (mhtmlTarget : Option τ) (usePdfjs : Bool)
    (immediatePath : Option String) (cancelForOrigin : Bool) :
    Resolution τ × Option τ :=
  match mhtmlTarget with
  | some t => (.specialTarget t, none)
  | none =>
    if usePdfjs then (.pdfjsTarget, none)
    else
      match immediatePath with
      | some p => (.fileTarget p, none)
      | none =>
        if cancelForOrigin then (.cancelledForOrigin, none)
        else (.askUser, none)

/-- `DownloadManager.get_mhtml`: reserve the single-slot special
target; a pending one is an assertion failure. -/
def getMhtml {τ : Type} (mhtmlTarget : Option τ) (target : τ) :
    Except String (Option τ) :=
  match mhtmlTarget with
  | some _ => .error "assert self._mhtml_target is None"
  | none => .ok (some target)

/-! ## `DownloadItem`: state machine

`QWebEngineDownloadRequest.DownloadState` values, encoded as the
naturals Qt uses; `_on_state_changed` treats anything else as a fatal
`ValueError`. -/

def DownloadRequested : Nat := 0
def DownloadInProgress : Nat := 1
def DownloadCompleted : Nat := 2
def DownloadCancelled : Nat := 3
def DownloadInterrupted : Nat := 4

/-- One observable step `_on_state_changed` performs, in order:
attribute assignments, signal emissions, the stats hook, and the
`_die` failure path (whose body lives in the abstract base class). -/
inductive ItemAction where
  | setSuccessful (b : Bool)
  | setDone (b : Bool)
  | emitFinished
  | emitCancelled
  | statsFinish
  | die (reason : String)
  deriving DecidableEq

/-- `DownloadItem._on_state_changed`: the ordered trace of effects for
a reported state, or the `ValueError` for an unknown state. -/
def onStateChanged (state : Nat) (interruptReason : String) :
    Except String (List ItemAction) :=
  if state = DownloadRequested then .ok []
  else if state = DownloadInProgress then .ok []
  else if state = DownloadCompleted then
    .ok [.setSuccessful true, .setDone true, .emitFinished, .statsFinish]
  else if state = DownloadCancelled then
    .ok [.setSuccessful false, .setDone true, .emitCancelled, .statsFinish]
  else if state = DownloadInterrupted then
    .ok [.setSuccessful false, .die interruptReason]
  else
    .error ("_on_state_changed was called with unknown state " ++ toString state)

/-- The `successful`/`done` flags of a `DownloadItem`. -/
structure Flags where
  successful : Bool
  done : Bool
  deriving DecidableEq

/-- Apply one action to the flags. -/
def applyAction (f : Flags) : ItemAction → Flags
  | .setSuccessful b => { f with successful := b }
  | .setDone b => { f with done := b }
  | _ => f

/-- Is the action an observer notification? -/
def isEmit : ItemAction → Bool
  | .emitFinished => true
  | .emitCancelled => true
  | _ => false

/-- The flags an observer sees at each emitted signal of a trace. -/
def observedFlags (f : Flags) : List ItemAction → List Flags
  | [] => []
  | a :: as =>
    (if isEmit a then [f] else []) ++ observedFlags (applyAction f a) as

/-- What `DownloadItem.retry` does, as a function of the wrapped
item's current state: whether `resume()` is issued, whether the
refusal warning is logged, and the wrapped state afterwards (`retry`
itself never mutates it). -/
structure RetryResult where
  resumed : Bool
  warned : Bool
  stateAfter : Nat
  deriving DecidableEq

/-- `DownloadItem.retry`. -/
def retry (qtState : Nat) : RetryResult :=
  if qtState ≠ DownloadInterrupted then
    { resumed := false, warned := true, stateAfter := qtState }
  else
    { resumed := true, warned := false, stateAfter := qtState }

/-- `DownloadItem._ensure_can_set_filename`: setting a filename is
only legal in the `DownloadRequested` state; otherwise a `ValueError`
is raised. -/
def ensureCanSetFilename (qtState : Nat) (filename : String) :
    Except String Unit :=
  if qtState ≠ DownloadRequested then
    .error ("Trying to set filename " ++ filename ++
      " on item which is state " ++ toString qtState ++
      " (not in requested state)!")
  else
    .ok ()

/-- Modelled from the spec: the engine pauses a download in the
Requested state until it is accepted; after `_after_set_filename`
calls `accept()` the engine moves it to InProgress ("Requested →
InProgress: engine signals start after target accepted"), so the item
is no longer in the Requested state.  `accept()` and the engine's
reaction live outside this module. -/
def stateAfterAccept : Nat := DownloadInProgress

/-! ## Lemmas about the matcher: every match consumes input -/

theorem consumeDigits_length_le : ∀ l : List Char, (consumeDigits l).length ≤ l.length := by
  intro l
  induction l with
  | nil => simp [consumeDigits]
  | cons c cs ih =>
    simp only [consumeDigits]
    split
    · exact le_trans ih (by simp)
    · simp

theorem matchNum_length {l r : List Char} (h : matchNum l = some r) :
    r.length < l.length := by
  match l with
  | [] => simp [matchNum] at h
  | [_] => simp [matchNum] at h
  | p :: c :: cs =>
    simp only [matchNum] at h
    split at h
    · cases hc : consumeDigits cs with
      | nil => rw [hc] at h; simp at h
      | cons q rest =>
        rw [hc] at h
        dsimp only at h
        by_cases hq : q = ')'
        · rw [if_pos hq] at h
          cases h
          have h1 := consumeDigits_length_le cs
          rw [hc] at h1
          simp only [List.length_cons] at h1 ⊢
          omega
        · rw [if_neg hq] at h; simp at h
    · simp at h

theorem matchChar_length {x : Char} {l r : List Char} (h : matchChar x l = some r) :
    l.length = r.length + 1 := by
  match l with
  | [] => simp [matchChar] at h
  | c :: cs =>
    simp only [matchChar] at h
    split at h
    · cases h; simp
    · simp at h

theorem matchAnyChar_length {l r : List Char} (h : matchAnyChar l = some r) :
    l.length = r.length + 1 := by
  match l with
  | [] => simp [matchAnyChar] at h
  | c :: cs =>
    simp only [matchAnyChar] at h
    split at h
    · simp at h
    · cases h; simp

theorem matchDigitsN_length : ∀ {n : Nat} {l r : List Char},
    matchDigitsN n l = some r → l.length = r.length + n := by
  intro n
  induction n with
  | zero => intro l r h; simp [matchDigitsN] at h; simp [h]
  | succ m ih =>
    intro l r h
    match l with
    | [] => simp [matchDigitsN] at h
    | c :: cs =>
      simp only [matchDigitsN] at h
      split at h
      · have := ih h
        simp only [List.length_cons]
        omega
      · simp at h

theorem matchTok_length_le {t : Tok} {l r : List Char} (h : matchTok t l = some r) :
    r.length ≤ l.length := by
  cases t with
  | lit c => have := matchChar_length h; omega
  | digits n => have := matchDigitsN_length h; omega
  | anyChar => have := matchAnyChar_length h; omega

theorem matchToks_length_le : ∀ {ts : List Tok} {l r : List Char},
    matchToks ts l = some r → r.length ≤ l.length := by
  intro ts
  induction ts with
  | nil => intro l r h; simp [matchToks] at h; simp [h]
  | cons t ts ih =>
    intro l r h
    simp only [matchToks] at h
    cases hm : matchTok t l with
    | none => rw [hm] at h; simp at h
    | some r1 =>
      rw [hm] at h
      exact le_trans (ih h) (matchTok_length_le hm)

theorem matchISO_length {l r : List Char} (h : matchISO l = some r) :
    r.length < l.length := by
  have h' : matchToks isoToks l = some r := h
  rw [isoToks, matchToks] at h'
  cases hm : matchTok (Tok.lit ' ') l with
  | none => rw [hm] at h'; cases h'
  | some r1 =>
    rw [hm] at h'
    dsimp only at h'
    have h1 : l.length = r1.length + 1 :=
      matchChar_length (show matchChar ' ' l = some r1 from hm)
    have h2 : r.length ≤ r1.length := matchToks_length_le h'
    omega

theorem isoLA_length {l r : List Char} (h : isoLA l = some r) :
    r.length < l.length := by
  simp only [isoLA] at h
  cases hm : matchISO l with
  | none => rw [hm] at h; simp at h
  | some r1 =>
    rw [hm] at h
    dsimp only at h
    by_cases hla : lookaheadOk r1 = true
    · rw [if_pos hla] at h; cases h; exact matchISO_length hm
    · rw [if_neg hla] at h; simp at h

theorem tryGroup_length {l r : List Char} (h : tryGroup l = some r) :
    r.length < l.length := by
  simp only [tryGroup] at h
  cases hm : matchNum l with
  | none => rw [hm] at h; exact isoLA_length h
  | some r1 =>
    rw [hm] at h
    dsimp only at h
    by_cases hla : lookaheadOk r1 = true
    · rw [if_pos hla] at h; cases h; exact matchNum_length hm
    · rw [if_neg hla] at h; exact isoLA_length h

theorem matchSuffixAt_length {l r : List Char} (h : matchSuffixAt l = some r) :
    r.length < l.length := by
  match l with
  | [] => simp [matchSuffixAt] at h
  | c :: cs =>
    simp only [matchSuffixAt] at h
    split at h
    · cases hm : tryGroup cs with
      | some r1 =>
        rw [hm] at h
        cases h
        have := tryGroup_length hm
        simp only [List.length_cons]
        omega
      | none =>
        rw [hm] at h
        exact tryGroup_length h
    · exact tryGroup_length h

/-! ## Lemmas about the scan -/

theorem stripGo_congr : ∀ (f1 : Nat) (l : List Char) (f2 : Nat),
    l.length ≤ f1 → l.length ≤ f2 → stripGo f1 l = stripGo f2 l := by
  intro f1
  induction f1 with
  | zero =>
    intro l f2 h1 _
    have hl : l = [] := List.eq_nil_of_length_eq_zero (Nat.le_zero.mp h1)
    subst hl
    cases f2 <;> simp [stripGo]
  | succ g ih =>
    intro l f2 h1 h2
    cases l with
    | nil => cases f2 <;> simp [stripGo]
    | cons c cs =>
      cases f2 with
      | zero => simp at h2
      | succ g2 =>
        simp only [stripGo]
        cases hm : matchSuffixAt (c :: cs) with
        | some rest =>
          have hlt := matchSuffixAt_length hm
          simp only [List.length_cons] at h1 h2 hlt
          exact ih rest g2 (by omega) (by omega)
        | none =>
          simp only [List.length_cons] at h1 h2
          rw [ih cs g2 (by omega) (by omega)]

theorem stripSuffix_cons_some {c : Char} {cs rest : List Char}
    (h : matchSuffixAt (c :: cs) = some rest) :
    stripSuffix (c :: cs) = stripSuffix rest := by
  have hlt := matchSuffixAt_length h
  simp only [List.length_cons] at hlt
  show stripGo (c :: cs).length (c :: cs) = stripGo rest.length rest
  simp only [List.length_cons, stripGo, h]
  exact stripGo_congr cs.length rest rest.length (by omega) le_rfl

theorem stripSuffix_cons_none {c : Char} {cs : List Char}
    (h : matchSuffixAt (c :: cs) = none) :
    stripSuffix (c :: cs) = c :: stripSuffix cs := by
  show stripGo (c :: cs).length (c :: cs) = c :: stripGo cs.length cs
  simp only [List.length_cons, stripGo, h]

theorem isSome_false_eq_none {A : Type} {o : Option A}
    (h : o.isSome = false) : o = none := by
  cases o with
  | none => rfl
  | some a => simp at h

/-- A name the pattern matches nowhere is left unchanged. -/
theorem stripSuffix_of_not_hasMatch : ∀ {l : List Char},
    hasMatch l = false → stripSuffix l = l := by
  intro l
  induction l with
  | nil => intro _; rfl
  | cons c cs ih =>
    intro h
    simp only [hasMatch, Bool.or_eq_false_iff] at h
    rw [stripSuffix_cons_none (isSome_false_eq_none h.1), ih h.2]

/-- No occurrence of the pattern starts inside `stem` when `rest`
follows it. -/
def noMatchWithin : List Char → List Char → Bool
  | [], _ => true
  | c :: cs, rest => !(matchSuffixAt (c :: (cs ++ rest))).isSome && noMatchWithin cs rest

/-- The scan walks over a match-free `stem` untouched and continues on
`rest`. -/
theorem stripSuffix_append : ∀ {stem rest : List Char},
    noMatchWithin stem rest = true →
    stripSuffix (stem ++ rest) = stem ++ stripSuffix rest := by
  intro stem
  induction stem with
  | nil => intro rest _; simp
  | cons c cs ih =>
    intro rest h
    simp only [noMatchWithin, Bool.and_eq_true, Bool.not_eq_true'] at h
    rw [List.cons_append, stripSuffix_cons_none (isSome_false_eq_none h.1),
      ih h.2, List.cons_append]

/-! ## The pattern accepts exactly-shaped suffixes -/

theorem consumeDigits_append : ∀ {ds : List Char} {x : Char} {r : List Char},
    ds.all Char.isDigit = true → x.isDigit = false →
    consumeDigits (ds ++ x :: r) = x :: r := by
  intro ds
  induction ds with
  | nil => intro x r _ hx; simp [consumeDigits, hx]
  | cons d ds ih =>
    intro x r hds hx
    simp only [List.all_cons, Bool.and_eq_true] at hds
    simp only [List.cons_append, consumeDigits, hds.1, if_true]
    exact ih hds.2 hx

theorem matchNum_paren {ds : List Char} (ext : List Char) (hne : ds ≠ [])
    (hds : ds.all Char.isDigit = true) :
    matchNum ('(' :: (ds ++ ')' :: ext)) = some ext := by
  match ds, hne with
  | d :: ds, _ =>
    simp only [List.all_cons, Bool.and_eq_true] at hds
    simp only [List.cons_append, matchNum, hds.1, and_true]
    rw [if_pos trivial]
    rw [consumeDigits_append hds.2 (by decide)]
    simp

theorem matchDigitsN_exact : ∀ {ds : List Char} (r : List Char),
    ds.all isPyDigit = true → matchDigitsN ds.length (ds ++ r) = some r := by
  intro ds
  induction ds with
  | nil => intro r _; simp [matchDigitsN]
  | cons d ds ih =>
    intro r hds
    simp only [List.all_cons, Bool.and_eq_true] at hds
    simp only [List.length_cons, List.cons_append, matchDigitsN, hds.1, if_true]
    exact ih r hds.2

theorem matchTok_lit {c : Char} {r : List Char} :
    matchTok (.lit c) (c :: r) = some r := by
  simp [matchTok, matchChar]

theorem matchTok_digits {n : Nat} {ds : List Char} (r : List Char)
    (hlen : ds.length = n) (hdig : ds.all isPyDigit = true) :
    matchTok (.digits n) (ds ++ r) = some r := by
  subst hlen
  simp [matchTok, matchDigitsN_exact r hdig]

theorem matchTok_any {c : Char} {r : List Char} (h : c ≠ '\n') :
    matchTok .anyChar (c :: r) = some r := by
  simp [matchTok, matchAnyChar, h]

theorem matchToks_cons_some {t : Tok} {ts : List Tok} {l r : List Char}
    (h : matchTok t l = some r) :
    matchToks (t :: ts) l = matchToks ts r := by
  simp [matchToks, h]

/-- The numeric disambiguation suffix `" (N)"`. -/
def numSuffix (ds : List Char) : List Char :=
  ' ' :: '(' :: (ds ++ [')'])

/-- The numeric suffix without the optional space, `"(N)"`. -/
def numSuffixNoSpace (ds : List Char) : List Char :=
  '(' :: (ds ++ [')'])

/-- A well-formed ISO-8601 disambiguation suffix
`" - YYYY-MM-DDTHH:MM:SS.mmmZ"`. -/
def isoSuffix (y mo dd hh mi ss ms : List Char) : List Char :=
  ' ' :: '-' :: ' ' ::
    (y ++ '-' :: (mo ++ '-' :: (dd ++ 'T' ::
      (hh ++ ':' :: (mi ++ ':' :: (ss ++ '.' :: (ms ++ ['Z'])))))))

/-- The two suffix forms of the claims: a numeric suffix `" (N)"` or a
well-formed ISO-8601 timestamp suffix. -/
def IsDisambigSuffix (sfx : List Char) : Prop :=
  (∃ ds, ds ≠ [] ∧ ds.all Char.isDigit = true ∧ sfx = numSuffix ds) ∨
  (∃ y mo dd hh mi ss ms : List Char,
    y.length = 4 ∧ mo.length = 2 ∧ dd.length = 2 ∧ hh.length = 2 ∧
    mi.length = 2 ∧ ss.length = 2 ∧ ms.length = 3 ∧
    (y ++ mo ++ dd ++ hh ++ mi ++ ss ++ ms).all isPyDigit = true ∧
    sfx = isoSuffix y mo dd hh mi ss ms)

theorem matchSuffixAt_numSuffix {ds ext : List Char} (hne : ds ≠ [])
    (hds : ds.all Char.isDigit = true) (hext : lookaheadOk ext = true) :
    matchSuffixAt (numSuffix ds ++ ext) = some ext := by
  have hshape : numSuffix ds ++ ext = ' ' :: '(' :: (ds ++ ')' :: ext) := by
    simp [numSuffix]
  rw [hshape]
  simp only [matchSuffixAt, if_pos rfl]
  have hnum := matchNum_paren ext hne hds
  simp only [tryGroup, hnum, hext, if_true]

theorem matchSuffixAt_numSuffixNoSpace {ds ext : List Char} (hne : ds ≠ [])
    (hds : ds.all Char.isDigit = true) (hext : lookaheadOk ext = true) :
    matchSuffixAt (numSuffixNoSpace ds ++ ext) = some ext := by
  have hshape : numSuffixNoSpace ds ++ ext = '(' :: (ds ++ ')' :: ext) := by
    simp [numSuffixNoSpace]
  rw [hshape]
  have hnum := matchNum_paren ext hne hds
  simp only [matchSuffixAt, if_neg (by decide : ¬('(' = ' '))]
  simp only [tryGroup, hnum, hext, if_true]

theorem matchISO_isoShape {y mo dd hh mi ss ms : List Char} (ext : List Char)
    (hy : y.length = 4) (hmo : mo.length = 2) (hdd : dd.length = 2)
    (hhh : hh.length = 2) (hmi : mi.length = 2) (hss : ss.length = 2)
    (hms : ms.length = 3)
    (hyd : y.all isPyDigit = true) (hmod : mo.all isPyDigit = true)
    (hddd : dd.all isPyDigit = true) (hhhd : hh.all isPyDigit = true)
    (hmid : mi.all isPyDigit = true) (hssd : ss.all isPyDigit = true)
    (hmsd : ms.all isPyDigit = true) :
    matchISO (' ' :: '-' :: ' ' ::
      (y ++ '-' :: (mo ++ '-' :: (dd ++ 'T' ::
        (hh ++ ':' :: (mi ++ ':' :: (ss ++ '.' :: (ms ++ 'Z' :: ext)))))))) =
      some ext := by
  simp only [matchISO, isoToks]
  rw [matchToks_cons_some (matchTok_lit (c := ' '))]
  rw [matchToks_cons_some (matchTok_lit (c := '-'))]
  rw [matchToks_cons_some (matchTok_lit (c := ' '))]
  rw [matchToks_cons_some (matchTok_digits _ hy hyd)]
  rw [matchToks_cons_some (matchTok_lit (c := '-'))]
  rw [matchToks_cons_some (matchTok_digits _ hmo hmod)]
  rw [matchToks_cons_some (matchTok_lit (c := '-'))]
  rw [matchToks_cons_some (matchTok_digits _ hdd hddd)]
  rw [matchToks_cons_some (matchTok_lit (c := 'T'))]
  rw [matchToks_cons_some (matchTok_digits _ hhh hhhd)]
  rw [matchToks_cons_some (matchTok_lit (c := ':'))]
  rw [matchToks_cons_some (matchTok_digits _ hmi hmid)]
  rw [matchToks_cons_some (matchTok_lit (c := ':'))]
  rw [matchToks_cons_some (matchTok_digits _ hss hssd)]
  rw [matchToks_cons_some (matchTok_any (by decide))]
  rw [matchToks_cons_some (matchTok_digits _ hms hmsd)]
  rw [matchToks_cons_some (matchTok_lit (c := 'Z'))]
  simp [matchToks]

theorem matchSuffixAt_isoSuffix {y mo dd hh mi ss ms : List Char} (ext : List Char)
    (hy : y.length = 4) (hmo : mo.length = 2) (hdd : dd.length = 2)
    (hhh : hh.length = 2) (hmi : mi.length = 2) (hss : ss.length = 2)
    (hms : ms.length = 3)
    (hyd : y.all isPyDigit = true) (hmod : mo.all isPyDigit = true)
    (hddd : dd.all isPyDigit = true) (hhhd : hh.all isPyDigit = true)
    (hmid : mi.all isPyDigit = true) (hssd : ss.all isPyDigit = true)
    (hmsd : ms.all isPyDigit = true) (hext : lookaheadOk ext = true) :
    matchSuffixAt (isoSuffix y mo dd hh mi ss ms ++ ext) = some ext := by
  have hshape : isoSuffix y mo dd hh mi ss ms ++ ext =
      ' ' :: '-' :: ' ' ::
        (y ++ '-' :: (mo ++ '-' :: (dd ++ 'T' ::
          (hh ++ ':' :: (mi ++ ':' :: (ss ++ '.' :: (ms ++ 'Z' :: ext))))))) := by
    simp [isoSuffix]
  rw [hshape]
  have hiso := matchISO_isoShape ext hy hmo hdd hhh hmi hss hms
    hyd hmod hddd hhhd hmid hssd hmsd
  have hnum1 : matchNum ('-' :: ' ' ::
      (y ++ '-' :: (mo ++ '-' :: (dd ++ 'T' ::
        (hh ++ ':' :: (mi ++ ':' :: (ss ++ '.' :: (ms ++ 'Z' :: ext)))))))) = none := by
    simp only [matchNum]
    rw [if_neg (by decide)]
  have hiso1 : matchISO ('-' :: ' ' ::
      (y ++ '-' :: (mo ++ '-' :: (dd ++ 'T' ::
        (hh ++ ':' :: (mi ++ ':' :: (ss ++ '.' :: (ms ++ 'Z' :: ext)))))))) = none := by
    simp only [matchISO, isoToks, matchToks, matchTok, matchChar]
    rw [if_neg (by decide)]
  have hnum2 : matchNum (' ' :: '-' :: ' ' ::
      (y ++ '-' :: (mo ++ '-' :: (dd ++ 'T' ::
        (hh ++ ':' :: (mi ++ ':' :: (ss ++ '.' :: (ms ++ 'Z' :: ext)))))))) = none := by
    simp only [matchNum]
    rw [if_neg (by decide)]
  simp only [matchSuffixAt, if_pos rfl, tryGroup, hnum1, hiso1, isoLA, hnum2, hiso, hext,
    if_true]

/-! ## Confirmation questions

`_ask_confirm_question` and `_ask_create_parent_question` build a
blocking yes/no question and wire its signals: *no* and *cancelled*
invoke `self.cancel(remove_data=False)`, and the item's own
`cancelled`/`error` signals abort the question. -/

/-- An item-side slot a question signal is connected to. -/
inductive QAction where
  | cancelItem (removeData : Bool)
  | afterSetFilename
  | afterCreateParentQuestion (forceOverwrite rememberDirectory : Bool)
  deriving DecidableEq

/-- `os.path.dirname` (POSIX): everything up to the last slash, with
trailing slashes stripped unless the head is all slashes. -/
def dirname (p : String) : String :=
  let cs := p.toList
  let i := cs.length - (cs.reverse.takeWhile (fun c => c != '/')).length
  let head := cs.take i
  if head ≠ [] ∧ ¬(head.all (fun c => c == '/') = true) then
    ((head.reverse.dropWhile (fun c => c == '/')).reverse).asString
  else
    head.asString

/-- A question as built and connected by the item: its content and
which slots its signals are wired to. -/
structure ConnectedQuestion where
  title : String
  text : String
  urlText : String
  onAnsweredYes : QAction
  onAnsweredNo : QAction
  onCancelledQ : QAction
  abortOnItemCancelled : Bool
  abortOnItemError : Bool
  blocking : Bool
  deriving DecidableEq

/-- `DownloadItem._ask_confirm_question`. -/
def askConfirmQuestion (title msg filename : String)
    (customYesAction : Option QAction) : ConnectedQuestion :=
  { title := title
    text := msg
    urlText := "file://" ++ filename
    onAnsweredYes := customYesAction.getD .afterSetFilename
    onAnsweredNo := .cancelItem false
    onCancelledQ := .cancelItem false
    abortOnItemCancelled := true
    abortOnItemError := true
    blocking := true }

/-- `DownloadItem._ask_create_parent_question`. -/
def askCreateParentQuestion (title msg filename : String)
    (forceOverwrite rememberDirectory : Bool) : ConnectedQuestion :=
  { title := title
    text := msg
    urlText := "file://" ++ dirname filename
    onAnsweredYes := .afterCreateParentQuestion forceOverwrite rememberDirectory
    onAnsweredNo := .cancelItem false
    onCancelledQ := .cancelItem false
    abortOnItemCancelled := true
    abortOnItemError := true
    blocking := true }

/-! ## Claims -/

/-- Helper: stripping a lone well-formed suffix followed by a
match-free extension yields the extension. -/
theorem stripSuffix_suffix_ext {sfx ext : List Char}
    (hsfx : IsDisambigSuffix sfx) (hext : lookaheadOk ext = true)
    (hexts : hasMatch ext = false) :
    stripSuffix (sfx ++ ext) = ext := by
  rcases hsfx with ⟨ds, hne, hds, rfl⟩ |
    ⟨y, mo, dd, hh, mi, ss, ms, hy, hmo, hdd, hhh, hmi, hss, hms, hall, rfl⟩
  · have hm := matchSuffixAt_numSuffix hne hds hext
    have hshape : numSuffix ds ++ ext = ' ' :: ('(' :: (ds ++ ')' :: ext)) := by
      simp [numSuffix]
    rw [hshape] at hm ⊢
    rw [stripSuffix_cons_some hm]
    exact stripSuffix_of_not_hasMatch hexts
  · simp only [List.all_append, Bool.and_eq_true] at hall
    obtain ⟨⟨⟨⟨⟨⟨hyd, hmod⟩, hddd⟩, hhhd⟩, hmid⟩, hssd⟩, hmsd⟩ := hall
    have hm := matchSuffixAt_isoSuffix ext hy hmo hdd hhh hmi hss hms
      hyd hmod hddd hhhd hmid hssd hmsd hext
    have hshape : isoSuffix y mo dd hh mi ss ms ++ ext =
        ' ' :: ('-' :: ' ' ::
          (y ++ '-' :: (mo ++ '-' :: (dd ++ 'T' ::
            (hh ++ ':' :: (mi ++ ':' :: (ss ++ '.' :: (ms ++ 'Z' :: ext)))))))) := by
      simp [isoSuffix]
    rw [hshape] at hm ⊢
    rw [stripSuffix_cons_some hm]
    exact stripSuffix_of_not_hasMatch hexts

/-- Claim C1 fails as stated: `"a (1).b (2)"` ends in the numeric
suffix `" (2)"` at the end of the string, so the claim requires
`_strip_suffix` to remove exactly that suffix, yielding `"a (1).b"`;
the code also deletes the earlier `" (1)"` (it sits right before a
dot) and returns `"a.b"`. -/
theorem c1_counterexample :
    stripSuffix (String.toList "a (1).b" ++ numSuffix ['2']) =
      String.toList "a.b" ∧
    stripSuffix (String.toList "a (1).b" ++ numSuffix ['2']) ≠
      String.toList "a (1).b" := by
  constructor
  · decide
  · decide

/-- Claim C1 (amended): for a name `stem ++ suffix ++ ext` whose
suffix is a numeric `" (N)"` or well-formed ISO-8601 timestamp suffix
sitting right before the extension or at the end, `_strip_suffix`
removes exactly that suffix — provided no other occurrence of the
suffix pattern starts elsewhere in the name (the code deletes every
occurrence standing before a dot, the end, or the newline that ends
the name, not only the last). -/
theorem c1_amended (stem sfx ext : List Char)
    (hsfx : IsDisambigSuffix sfx) (hext : lookaheadOk ext = true)
    (hstem : noMatchWithin stem (sfx ++ ext) = true)
    (hexts : hasMatch ext = false) :
    stripSuffix (stem ++ sfx ++ ext) = stem ++ ext := by
  rw [List.append_assoc, stripSuffix_append hstem,
    stripSuffix_suffix_ext hsfx hext hexts]

/-- Witness for C1 (amended): `"report (3).pdf"` becomes
`"report.pdf"`. -/
theorem c1_amended_witness :
    stripSuffix (String.toList "report" ++ numSuffix ['3'] ++ String.toList ".pdf") =
      String.toList "report" ++ String.toList ".pdf" :=
  c1_amended _ _ _ (Or.inl ⟨['3'], by decide, by decide, rfl⟩)
    (by decide) (by decide) (by decide)

/-- Claim C2 fails as stated: `_strip_suffix` is not idempotent.  On
`"a (1) (2).x"` one pass deletes only `" (2)"` (the `" (1)"`
occurrence is followed by a space, not a dot), giving `"a (1).x"`; a
second pass then deletes the now-exposed `" (1)"`, giving `"a.x"`. -/
theorem c2_counterexample :
    stripSuffix (stripSuffix (String.toList "a (1) (2).x")) ≠
      stripSuffix (String.toList "a (1) (2).x") ∧
    stripSuffix (String.toList "a (1) (2).x") = String.toList "a (1).x" ∧
    stripSuffix (String.toList "a (1).x") = String.toList "a.x" := by
  refine ⟨by decide, by decide, by decide⟩

/-- Claim C2 (amended): `_strip_suffix` is idempotent on every input
whose single-pass result contains no further occurrence of the suffix
pattern; deleting a suffix can expose a stacked suffix, which only a
further pass would delete. -/
theorem c2_amended (x : List Char)
    (h : hasMatch (stripSuffix x) = false) :
    stripSuffix (stripSuffix x) = stripSuffix x :=
  stripSuffix_of_not_hasMatch h

/-- Witness for C2 (amended): a second pass leaves
`"report (3).pdf"`'s normalization unchanged. -/
theorem c2_amended_witness :
    stripSuffix (stripSuffix (String.toList "report (3).pdf")) =
      stripSuffix (String.toList "report (3).pdf") :=
  c2_amended _ (by decide)

/-- Claim C10 fails as stated: `"a (1).b(2)"` ends in the spaceless
numeric suffix `"(2)"`, so the claim requires `_strip_suffix` to
remove it and yield `"a (1).b"`; the code also deletes the earlier
`" (1)"` (it sits right before a dot) and returns `"a.b"`. -/
theorem c10_counterexample :
    stripSuffix (String.toList "a (1).b" ++ numSuffixNoSpace ['2']) =
      String.toList "a.b" ∧
    stripSuffix (String.toList "a (1).b" ++ numSuffixNoSpace ['2']) ≠
      String.toList "a (1).b" := by
  constructor
  · decide
  · decide

/-- Claim C10 (amended): the space before the numeric suffix is
optional — a name `stem ++ "(N)" ++ ext` with no separating space is
stripped to `stem ++ ext` all the same, provided no other occurrence
of the suffix pattern starts elsewhere in the name (the code deletes
every occurrence standing before a dot, the end, or the newline that
ends the name, not only the trailing one). -/
theorem c10_nospace_suffix (stem ds ext : List Char) (hne : ds ≠ [])
    (hds : ds.all Char.isDigit = true) (hext : lookaheadOk ext = true)
    (hstem : noMatchWithin stem (numSuffixNoSpace ds ++ ext) = true)
    (hexts : hasMatch ext = false) :
    stripSuffix (stem ++ numSuffixNoSpace ds ++ ext) = stem ++ ext := by
  rw [List.append_assoc, stripSuffix_append hstem]
  have hm := matchSuffixAt_numSuffixNoSpace hne hds hext
  have hshape : numSuffixNoSpace ds ++ ext = '(' :: (ds ++ ')' :: ext) := by
    simp [numSuffixNoSpace]
  rw [hshape] at hm ⊢
  rw [stripSuffix_cons_some hm, stripSuffix_of_not_hasMatch hexts]

/-- Witness for C10: `"report(3).pdf"` becomes `"report.pdf"`. -/
theorem c10_nospace_suffix_witness :
    stripSuffix (String.toList "report" ++ numSuffixNoSpace ['3'] ++
        String.toList ".pdf") =
      String.toList "report" ++ String.toList ".pdf" :=
  c10_nospace_suffix _ _ _ (by decide) (by decide) (by decide) (by decide)
    (by decide)

/-- `versionGE v w = false` exactly when `v` is lexicographically
below `w`. -/
theorem versionGE_eq_false_iff (v w : Nat × Nat × Nat) :
    versionGE v w = false ↔
      (v.1 < w.1 ∨ (v.1 = w.1 ∧ (v.2.1 < w.2.1 ∨
        (v.2.1 = w.2.1 ∧ v.2.2 < w.2.2)))) := by
  unfold versionGE
  by_cases h1 : v.1 = w.1 <;> by_cases h2 : v.2.1 = w.2.1 <;>
    simp [h1, h2] <;> omega

/-- Claim C3: the data-URL workaround fires iff the engine version is
below 5.15.3, the scheme is `data`, and the engine-suggested name
equals the buggy derived value; when it fires the name is rebuilt from
the URL with the fallback literal `"qutebrowser-download"`, otherwise
the engine-suggested name is suffix-stripped. -/
theorem c3_workaround (f : Url → String → String) (v : Nat × Nat × Nat)
    (url : Url) (mime fn : String) :
    (needsWorkaround v url mime fn = true ↔
      ((v.1 < 5 ∨ (v.1 = 5 ∧ (v.2.1 < 15 ∨ (v.2.1 = 15 ∧ v.2.2 < 3)))) ∧
        url.scheme.toLower = "data" ∧
        fn = wrongFilename url.path mime)) ∧
    suggestedFilename f v url mime fn =
      (if needsWorkaround v url mime fn then f url "qutebrowser-download"
       else stripSuffixStr fn) := by
  refine ⟨?_, rfl⟩
  have hiff := versionGE_eq_false_iff v (5, 15, 3)
  cases hv : versionGE v (5, 15, 3) with
  | true =>
    simp only [needsWorkaround, hv, if_true, Bool.false_eq_true, false_iff]
    rintro ⟨hlt, -, -⟩
    have hfalse := hiff.mpr hlt
    rw [hv] at hfalse
    cases hfalse
  | false =>
    have hlt := hiff.mp hv
    by_cases hs : url.scheme.toLower = "data"
    · simp [needsWorkaround, hv, hs, hlt]
    · simp [needsWorkaround, hv, hs]

/-- Claim C4: `handle_download` resolves the target by a fixed
first-match cascade — pending mhtml target (consumed, slot cleared),
pdfjs target, configured download directory, origin-based cancel,
interactive question — and assigns at most one target. -/
theorem c4_target_resolution {τ : Type} (slot : Option τ) (pdfjs : Bool)
    (ipath : Option String) (co : Bool) :
    (∀ t, slot = some t →
      resolveTarget slot pdfjs ipath co = (.specialTarget t, none)) ∧
    (slot = none → pdfjs = true →
      resolveTarget slot pdfjs ipath co = (.pdfjsTarget, none)) ∧
    (∀ p, slot = none → pdfjs = false → ipath = some p →
      resolveTarget slot pdfjs ipath co = (.fileTarget p, none)) ∧
    (slot = none → pdfjs = false → ipath = none → co = true →
      resolveTarget slot pdfjs ipath co = (.cancelledForOrigin, none)) ∧
    (slot = none → pdfjs = false → ipath = none → co = false →
      resolveTarget slot pdfjs ipath co = (.askUser, none)) ∧
    setTargetCount (resolveTarget slot pdfjs ipath co).1 ≤ 1 := by
  refine ⟨?_, ?_, ?_, ?_, ?_, ?_⟩
  · rintro t rfl; rfl
  · rintro rfl rfl; rfl
  · rintro p rfl rfl rfl; rfl
  · rintro rfl rfl rfl rfl; simp [resolveTarget]
  · rintro rfl rfl rfl rfl; simp [resolveTarget]
  · cases slot with
    | some t => simp [resolveTarget, setTargetCount]
    | none =>
      cases pdfjs <;> cases ipath <;> cases co <;>
        simp [resolveTarget, setTargetCount]

/-- Witness for C4: a pending mhtml target is consumed and the slot
cleared. -/
theorem c4_target_resolution_witness :
    resolveTarget (τ := Nat) (some 7) true (some "/tmp/x") true =
      (.specialTarget 7, none) :=
  (c4_target_resolution (some 7) true (some "/tmp/x") true).1 7 rfl

/-- Claim C5: `retry` resumes the transfer iff the wrapped state is
exactly Interrupted; any other state only logs a warning and leaves
everything unchanged. -/
theorem c5_retry (s : Nat) :
    ((retry s).resumed = true ↔ s = DownloadInterrupted) ∧
    ((retry s).warned = true ↔ s ≠ DownloadInterrupted) ∧
    (retry s).stateAfter = s := by
  by_cases h : s = DownloadInterrupted <;> simp [retry, h]

/-- Claim C6: in the Completed and Cancelled branches of
`_on_state_changed` both flags are assigned before any signal is
emitted, so every observer sees `done = true` with `successful` set
for Completed and cleared for Cancelled — whatever the flags were
before. -/
theorem c6_flags_before_signals (reason : String) (f : Flags) :
    (onStateChanged DownloadCompleted reason).map (observedFlags f) =
      .ok [{ successful := true, done := true }] ∧
    (onStateChanged DownloadCancelled reason).map (observedFlags f) =
      .ok [{ successful := false, done := true }] := by
  constructor <;> rfl

/-- Claim C7: both confirmation questions wire *no* and *cancelled* to
`cancel(remove_data=False)` and connect the item's `cancelled` and
`error` signals to abort the question. -/
theorem c7_question_wiring (title msg filename : String)
    (customYes : Option QAction) (fo rd : Bool) :
    (askConfirmQuestion title msg filename customYes).onAnsweredNo =
      .cancelItem false ∧
    (askConfirmQuestion title msg filename customYes).onCancelledQ =
      .cancelItem false ∧
    (askConfirmQuestion title msg filename customYes).abortOnItemCancelled =
      true ∧
    (askConfirmQuestion title msg filename customYes).abortOnItemError =
      true ∧
    (askCreateParentQuestion title msg filename fo rd).onAnsweredNo =
      .cancelItem false ∧
    (askCreateParentQuestion title msg filename fo rd).onCancelledQ =
      .cancelItem false ∧
    (askCreateParentQuestion title msg filename fo rd).abortOnItemCancelled =
      true ∧
    (askCreateParentQuestion title msg filename fo rd).abortOnItemError =
      true := by
  refine ⟨rfl, rfl, rfl, rfl, rfl, rfl, rfl, rfl⟩

/-- Claim C8: setting a filename outside the Requested state raises a
`ValueError`; accepting a target moves the item out of Requested (per
the spec), so a second `set_target` on the same item fails. -/
theorem c8_one_shot_target (s : Nat) (fn : String) :
    (ensureCanSetFilename s fn = .ok () ↔ s = DownloadRequested) ∧
    (∃ msg, ensureCanSetFilename stateAfterAccept fn = .error msg) := by
  constructor
  · by_cases h : s = DownloadRequested <;> simp [ensureCanSetFilename, h]
  · exact ⟨_, rfl⟩

/-- Claim C9: a state outside the five known values makes
`_on_state_changed` raise the `ValueError` — it is never swallowed and
no trace of item mutations is produced. -/
theorem c9_unknown_state_fatal (s : Nat) (reason : String)
    (h0 : s ≠ DownloadRequested) (h1 : s ≠ DownloadInProgress)
    (h2 : s ≠ DownloadCompleted) (h3 : s ≠ DownloadCancelled)
    (h4 : s ≠ DownloadInterrupted) :
    onStateChanged s reason =
      .error ("_on_state_changed was called with unknown state " ++ toString s) ∧
    ∀ tr, onStateChanged s reason ≠ .ok tr := by
  have herr : onStateChanged s reason =
      .error ("_on_state_changed was called with unknown state " ++ toString s) := by
    simp [onStateChanged, h0, h1, h2, h3, h4]
  refine ⟨herr, fun tr h => ?_⟩
  rw [herr] at h
  cases h

/-- Witness for C9: state 7 is rejected with the `ValueError`. -/
theorem c9_unknown_state_fatal_witness :
    onStateChanged 7 "reason" =
      .error ("_on_state_changed was called with unknown state " ++ toString 7) ∧
    ∀ tr, onStateChanged 7 "reason" ≠ .ok tr :=
  c9_unknown_state_fatal 7 "reason" (by decide) (by decide) (by decide)
    (by decide) (by decide)
